import Mathlib

/-!
Verification of the sender/issuer input-selection core of a UTXO client library.

The development shallowly embeds the Rust sources:
  - client/src/api/block_builder/input_selection/sender_issuer.rs
  - types/src/block/output/unlock_condition/expiration.rs
Pure functions become Lean functions; the async ledger-fallback branches are
embedded with the collaborator results (secret manager presence, address-search
result, fetched outputs) passed as explicit parameters; fallible code returns
Except.  Helper functions living in crates outside the provided sources
(Output::required_and_unlocked_address, UnlockConditions::locked_address,
search_address) are modelled from the specification and marked as such.
-/

namespace SenderIssuer

/-- Unique identifier of one UTXO instance (Rust OutputId), modelled as a Nat. -/
abbrev OutputId := Nat

/-- Chain identifier (AliasId / NftId).  The Rust type is a 32-byte array where
the all-zero value is the null identifier and a fresh identifier can be derived
from an OutputId by hashing; the hash is modelled as the free injection
hashOf, kept distinct from explicitly named identifiers. -/
inductive ChainId where
  | null
  | chain (n : Nat)
  | hashOf (oid : OutputId)
deriving DecidableEq, Repr

/-- AliasId::is_null / NftId::is_null. -/
def ChainId.isNull : ChainId → Bool
  | .null => true
  | _ => false

/-- AliasId::or_from_output_id / NftId::or_from_output_id: replace a null
identifier by the one derived from the given OutputId. -/
def ChainId.orFromOutputId (c : ChainId) (oid : OutputId) : ChainId :=
  if c = .null then .hashOf oid else c

/-- Address: tagged union over Ed25519 (public-key-derived), Alias and Nft
(chain-identifier based).  Equality is by kind plus identifier. -/
inductive Address where
  | ed25519 (k : Nat)
  | alias (id : ChainId)
  | nft (id : ChainId)
deriving DecidableEq, Repr

/-- ExpirationUnlockCondition from types/src/block/output/unlock_condition/expiration.rs:
before the unix time only the address unlock condition may unlock the output,
at or after it only the return address can. -/
structure ExpirationUnlockCondition where
  return_address : Address
  timestamp : Nat
deriving DecidableEq, Repr

/-- ExpirationUnlockCondition::return_address_expired: returns the return
address if the condition has expired at the given timestamp. -/
def ExpirationUnlockCondition.return_address_expired
    (c : ExpirationUnlockCondition) (timestamp : Nat) : Option Address :=
  if timestamp ≥ c.timestamp then some c.return_address else none

/-- Basic output: amount, address unlock condition, optional expiration
unlock condition, features possibly holding a Sender address. -/
structure BasicOutput where
  amount : Nat
  address : Address
  expiration : Option ExpirationUnlockCondition
  sender : Option Address
deriving DecidableEq, Repr

/-- Alias output: chain identifier, state index, state controller and governor
unlock conditions, Sender feature and immutable Issuer feature. -/
structure AliasOutput where
  amount : Nat
  aliasId : ChainId
  stateIndex : Nat
  stateController : Address
  governor : Address
  sender : Option Address
  issuer : Option Address
deriving DecidableEq, Repr

/-- Nft output: chain identifier, address unlock condition, optional
expiration, Sender feature and immutable Issuer feature. -/
structure NftOutput where
  amount : Nat
  nftId : ChainId
  address : Address
  expiration : Option ExpirationUnlockCondition
  sender : Option Address
  issuer : Option Address
deriving DecidableEq, Repr

/-- Foundry output: controlled by an alias address. -/
structure FoundryOutput where
  amount : Nat
  aliasAddress : ChainId
deriving DecidableEq, Repr

/-- Output: tagged union over Basic, Alias, Nft, Foundry, Treasury. -/
inductive Output where
  | basic (b : BasicOutput)
  | alias (a : AliasOutput)
  | nft (n : NftOutput)
  | foundry (f : FoundryOutput)
  | treasury (amount : Nat)
deriving DecidableEq, Repr

/-- Output::features().and_then(Features::sender): the Sender feature address
when present (Treasury and Foundry outputs carry no Sender feature). -/
def Output.sender_feature : Output → Option Address
  | .basic b => b.sender
  | .alias a => a.sender
  | .nft n => n.sender
  | _ => none

/-- Output::immutable_features().and_then(Features::issuer): the immutable
Issuer feature address when present. -/
def Output.issuer_feature : Output → Option Address
  | .alias a => a.issuer
  | .nft n => n.issuer
  | _ => none

/-- AliasOutput::alias_id_non_null. -/
def AliasOutput.alias_id_non_null (a : AliasOutput) (oid : OutputId) : ChainId :=
  a.aliasId.orFromOutputId oid

/-- InputSigningData: an owned bundle of output, its OutputId (from the
metadata), an optional HD derivation path (sequence of hardened components),
and the cached address the output is unlocked with (the Rust field stores it
bech32-encoded; encoding being injective it is modelled by the address). -/
structure InputSigningData where
  output : Output
  outputId : OutputId
  chain : Option (List Nat)
  bech32Address : Address
deriving DecidableEq, Repr

/-- InputSigningData::output_id. -/
def InputSigningData.output_id (i : InputSigningData) : OutputId := i.outputId

/-- The error cases of the embedded code (crate::Error). -/
inductive ClientError where
  | missingSecretManager
  | missingInputWithEd25519Address
  | missingInput (addr : Address)
  | invalidOutputKind
deriving DecidableEq, Repr

end SenderIssuer

namespace SenderIssuer

/-- Modelled from the spec: UnlockConditions::locked_address lives in the
types crate outside the provided sources.  Per the spec, an output may carry
an expiration condition that redirects control to the return address at the
current time; otherwise the plain address unlock condition governs.  Uses
return_address_expired from the provided source. -/
def lockedAddress (addr : Address) (expiration : Option ExpirationUnlockCondition)
    (current_time : Nat) : Address :=
  match expiration with
  | none => addr
  | some c =>
    match c.return_address_expired current_time with
    | some ret => ret
    | none => addr

/-- Modelled from the spec: Output::required_and_unlocked_address lives in the
types crate outside the provided sources.  Per the spec it returns the address
currently required to unlock the output (time-conditioned via expiration for
Basic and Nft outputs; state controller versus governor for an Alias output
depending on the given transition classification) together with the optional
secondary chain address implicitly authorized by consuming the output.
Treasury outputs cannot be unlocked by an address and yield an error. -/
def required_and_unlocked_address (output : Output) (current_time : Nat)
    (output_id : OutputId) (is_state_transition : Bool) :
    Except ClientError (Address × Option Address) :=
  match output with
  | .basic b => .ok (lockedAddress b.address b.expiration current_time, none)
  | .alias a =>
    .ok (if is_state_transition then a.stateController else a.governor,
      some (.alias (a.aliasId.orFromOutputId output_id)))
  | .nft n =>
    .ok (lockedAddress n.address n.expiration current_time,
      some (.nft (n.nftId.orFromOutputId output_id)))
  | .foundry f => .ok (.alias f.aliasAddress, none)
  | .treasury _ => .error .invalidOutputKind

/-- alias_state_transition from sender_issuer.rs: whether consuming the given
input is an alias state transition with the provided outputs. -/
def alias_state_transition (input_signing_data : InputSigningData)
    (outputs : List Output) : Except ClientError (Option Bool) :=
  .ok (match input_signing_data.output with
    | .alias alias_input =>
      let alias_id := alias_input.alias_id_non_null input_signing_data.output_id
      (outputs.findSome? (fun o =>
        match o with
        | .alias alias_output =>
          if alias_output.aliasId = alias_id then
            if alias_output.stateIndex = alias_input.stateIndex then
              some (some false)
            else
              some (some true)
          else
            none
        | _ => none)).getD none
    | _ => none)

end SenderIssuer

namespace SenderIssuer

/-- The transition flag the collector applies to an already-selected input:
alias_state_transition(input, outputs)?.unwrap_or(false) from
get_required_addresses_for_sender_and_issuer. -/
def collector_transition_flag (input_signing_data : InputSigningData)
    (outputs : List Output) : Except ClientError Bool :=
  match alias_state_transition input_signing_data outputs with
  | .error e => .error e
  | .ok t => .ok (t.getD false)

/-- The transition flag the candidate matcher applies to an input it examines:
alias_state_transition(input, outputs)?.unwrap_or(true) from
select_inputs_for_sender_and_issuer. -/
def matcher_transition_flag (input_signing_data : InputSigningData)
    (outputs : List Output) : Except ClientError Bool :=
  match alias_state_transition input_signing_data outputs with
  | .error e => .error e
  | .ok t => .ok (t.getD true)

/-- HashSet-style insertion on the list model of a set: add only when absent,
keeping insertion order deterministic. -/
def insertAddr (a : Address) (s : List Address) : List Address :=
  if a ∈ s then s else s ++ [a]

/-- First loop of get_required_addresses_for_sender_and_issuer: accumulate the
addresses in the selected inputs that will be unlocked in the transaction (the
required unlock address of each input, its classification defaulting to false
when unknown, and the implicitly unlocked alias or nft address). -/
def unlockedAddressesLoop (outputs : List Output) (current_time : Nat) :
    List InputSigningData → List Address → Except ClientError (List Address)
  | [], acc => .ok acc
  | input_signing_data :: rest, acc =>
    match collector_transition_flag input_signing_data outputs with
    | .error e => .error e
    | .ok flag =>
      match required_and_unlocked_address input_signing_data.output current_time
          input_signing_data.output_id flag with
      | .error e => .error e
      | .ok (required_unlock_address, unlocked_alias_or_nft_address) =>
        unlockedAddressesLoop outputs current_time rest
          (match unlocked_alias_or_nft_address with
           | some a => insertAddr a (insertAddr required_unlock_address acc)
           | none => insertAddr required_unlock_address acc)

/-- Whether an output is a new utxo chain creation: an Alias or Nft output
whose chain identifier is null (from the issuer gating in
get_required_addresses_for_sender_and_issuer). -/
def utxo_chain_creation : Output → Bool
  | .alias alias_output => alias_output.aliasId.isNull
  | .nft nft_output => nft_output.nftId.isNull
  | _ => false

/-- One guarded insertion of the required-addresses loop: add the feature
address unless it is already collected or already present in the unlocked
addresses of the selected inputs (the nested contains checks of the Rust
loop). -/
def addRequiredAddress (unlocked_addresses : List Address)
    (required : List Address) : Option Address → List Address
  | some a =>
    if a ∈ required then required
    else if a ∈ unlocked_addresses then required
    else required ++ [a]
  | none => required

/-- Second loop of get_required_addresses_for_sender_and_issuer: for each new
output add its Sender feature address, and, when the output is a new chain
creation, its immutable Issuer feature address, unless already collected or
already unlocked by the selected inputs. -/
def requiredAddressesLoop (unlocked_addresses : List Address) :
    List Output → List Address → List Address
  | [], required => required
  | output :: rest, required =>
    requiredAddressesLoop unlocked_addresses rest
      (if utxo_chain_creation output then
        addRequiredAddress unlocked_addresses
          (addRequiredAddress unlocked_addresses required output.sender_feature)
          output.issuer_feature
      else
        addRequiredAddress unlocked_addresses required output.sender_feature)

/-- get_required_addresses_for_sender_and_issuer from sender_issuer.rs:
required addresses for sender and issuer features that are not already
unlocked with the selected inputs. -/
def get_required_addresses_for_sender_and_issuer
    (selected_inputs : List InputSigningData) (outputs : List Output)
    (current_time : Nat) : Except ClientError (List Address) :=
  match unlockedAddressesLoop outputs current_time selected_inputs [] with
  | .error e => .error e
  | .ok unlocked_addresses =>
    .ok (requiredAddressesLoop unlocked_addresses outputs [])

/-- The caller-owned mutable selection state of the candidate matcher: the
selection list and the dedup set of selected OutputIds (the HashSet modelled
as a list, membership being what matters). -/
structure SelectionState where
  selected_inputs : List InputSigningData
  selected_inputs_output_ids : List OutputId
deriving DecidableEq, Repr

/-- First inner loop of select_inputs_for_sender_and_issuer: scan the already
selected inputs for one whose required or implicitly unlocked address matches
the required address. -/
def scanSelected (outputs : List Output) (current_time : Nat)
    (required_address : Address) :
    List InputSigningData → Except ClientError Bool
  | [] => .ok false
  | input_signing_data :: rest =>
    match matcher_transition_flag input_signing_data outputs with
    | .error e => .error e
    | .ok flag =>
      match required_and_unlocked_address input_signing_data.output current_time
          input_signing_data.output_id flag with
      | .error e => .error e
      | .ok (required_unlock_address, unlocked_alias_or_nft_address) =>
        if required_unlock_address = required_address then .ok true
        else
          match unlocked_alias_or_nft_address with
          | some a =>
            if a = required_address then .ok true
            else scanSelected outputs current_time required_address rest
          | none => scanSelected outputs current_time required_address rest

/-- Second inner loop of select_inputs_for_sender_and_issuer: scan the
candidate pool, skipping already selected OutputIds, for an input whose
required or implicitly unlocked address matches; returns the first match. -/
def scanCandidates (outputs : List Output) (current_time : Nat)
    (required_address : Address) (selected_ids : List OutputId) :
    List InputSigningData → Except ClientError (Option InputSigningData)
  | [] => .ok none
  | input_signing_data :: rest =>
    if input_signing_data.output_id ∈ selected_ids then
      scanCandidates outputs current_time required_address selected_ids rest
    else
      match matcher_transition_flag input_signing_data outputs with
      | .error e => .error e
      | .ok flag =>
        match required_and_unlocked_address input_signing_data.output current_time
            input_signing_data.output_id flag with
        | .error e => .error e
        | .ok (required_unlock_address, unlocked_alias_or_nft_address) =>
          if required_unlock_address = required_address then
            .ok (some input_signing_data)
          else
            match unlocked_alias_or_nft_address with
            | some a =>
              if a = required_address then .ok (some input_signing_data)
              else scanCandidates outputs current_time required_address selected_ids rest
            | none => scanCandidates outputs current_time required_address selected_ids rest

/-- The addresses loop of select_inputs_for_sender_and_issuer: per required
address, first the already selected inputs, then the candidate pool, appending
a found candidate (and recording its OutputId); a required address neither
search satisfies aborts with MissingInput, leaving the state as mutated so
far. -/
def addressesLoop (inputs : List InputSigningData) (outputs : List Output)
    (current_time : Nat) :
    List Address → SelectionState → SelectionState × Except ClientError Unit
  | [], st => (st, .ok ())
  | required_address :: rest, st =>
    match scanSelected outputs current_time required_address st.selected_inputs with
    | .error e => (st, .error e)
    | .ok true => addressesLoop inputs outputs current_time rest st
    | .ok false =>
      match scanCandidates outputs current_time required_address
          st.selected_inputs_output_ids inputs with
      | .error e => (st, .error e)
      | .ok (some input_signing_data) =>
        addressesLoop inputs outputs current_time rest
          { selected_inputs := st.selected_inputs ++ [input_signing_data]
            selected_inputs_output_ids :=
              st.selected_inputs_output_ids ++ [input_signing_data.output_id] }
      | .ok none => (st, .error (.missingInput required_address))

/-- select_inputs_for_sender_and_issuer from sender_issuer.rs.  The Rust
function mutates the selection list, the dedup set and (nominally) the outputs
vector through mutable references; the embedding threads them explicitly and
returns them next to the success or error result. -/
def select_inputs_for_sender_and_issuer (inputs : List InputSigningData)
    (st : SelectionState) (outputs : List Output) (current_time : Nat) :
    SelectionState × List Output × Except ClientError Unit :=
  match get_required_addresses_for_sender_and_issuer st.selected_inputs outputs
      current_time with
  | .error e => (st, outputs, .error e)
  | .ok required_sender_or_issuer_addresses =>
    let p :=
      addressesLoop inputs outputs current_time
        required_sender_or_issuer_addresses st
    (p.1, outputs, p.2)

/-- An output returned by the ledger query collaborator together with the
OutputId from its metadata (OutputWithMetadataResponse after decoding). -/
structure OutputWithMetadata where
  output : Output
  outputId : OutputId
deriving DecidableEq, Repr

/-- The purpose constant heading every derivation path built here
(constants::HD_WALLET_TYPE). -/
def HD_WALLET_TYPE : Nat := 44

/-- The loop of the Ed25519 branch of get_inputs_for_sender_and_issuer over
the basic outputs owned by the address: the first output whose currently
required unlock address (classification flag false: basic outputs are no alias
state transition) equals the target is taken. -/
def ed25519OutputScan (current_time : Nat) (target : Address) :
    List OutputWithMetadata → Except ClientError (Option OutputWithMetadata)
  | [] => .ok none
  | output_response :: rest =>
    match required_and_unlocked_address output_response.output current_time
        output_response.outputId false with
    | .error e => .error e
    | .ok (required_unlock_address, _) =>
      if required_unlock_address = target then .ok (some output_response)
      else ed25519OutputScan current_time target rest

/-- The Ed25519 branch of get_inputs_for_sender_and_issuer.  The collaborator
results are passed explicitly: secret_manager is the presence of a configured
secret manager; search_result is the outcome of search_address, modelled from
the spec as the found derivation index with its internal flag, none when the
bounded search exhausts its range (per the spec the exhausted search fails
with the missing input with Ed25519 address error); address_outputs are the
decoded unspent basic outputs owned by the target address. -/
def resolve_ed25519_required_address (secret_manager : Option Unit)
    (search_result : Option (Nat × Bool))
    (address_outputs : List OutputWithMetadata)
    (coin_type : Nat) (account_index : Nat)
    (sender_or_issuer_address : Address) (current_time : Nat) :
    Except ClientError InputSigningData :=
  match secret_manager with
  | none => .error .missingSecretManager
  | some _ =>
    match search_result with
    | none => .error .missingInputWithEd25519Address
    | some (address_index, internal) =>
      match ed25519OutputScan current_time sender_or_issuer_address address_outputs with
      | .error e => .error e
      | .ok (some output_response) =>
        .ok { output := output_response.output
              outputId := output_response.outputId
              chain := some [HD_WALLET_TYPE, coin_type, account_index,
                (if internal then 1 else 0), address_index]
              bech32Address := sender_or_issuer_address }
      | .ok none => .error .missingInputWithEd25519Address

/-- The Alias branch of get_inputs_for_sender_and_issuer.  utxo_chain_inputs
and required_inputs are the known and the so-far-resolved inputs; alias_id
comes from the required Alias address; fetched is the output the ledger
collaborator returned for the chain identifier (with its OutputId);
search_result is the search_address outcome for the state controller address
when that is Ed25519.  Returns none when the requirement is skipped because a
same-chain-identifier Alias output is already present (or the fetched output
is not an Alias output, which the Rust if-let silently passes over). -/
def resolve_alias_required_address
    (utxo_chain_inputs required_inputs : List InputSigningData)
    (alias_id : ChainId) (fetched : Output) (fetched_output_id : OutputId)
    (secret_manager : Option Unit) (search_result : Option (Nat × Bool))
    (coin_type : Nat) (account_index : Nat) :
    Except ClientError (Option InputSigningData) :=
  if (utxo_chain_inputs ++ required_inputs).any (fun input =>
      match input.output with
      | .alias alias_output => alias_id = alias_output.aliasId
      | _ => false) then
    .ok none
  else
    match fetched with
    | .alias alias_output =>
      let unlock_address := alias_output.stateController
      let address_index_internal : Except ClientError (Option (Nat × Bool)) :=
        match secret_manager with
        | some _ =>
          match unlock_address with
          | .ed25519 _ =>
            match search_result with
            | some r => .ok (some r)
            | none => .error .missingInputWithEd25519Address
          | _ => .ok none
        | none => .ok (some (0, false))
      match address_index_internal with
      | .error e => .error e
      | .ok aii =>
        .ok (some { output := fetched
                    outputId := fetched_output_id
                    chain := aii.map (fun p =>
                      [HD_WALLET_TYPE, coin_type, account_index,
                        (if p.2 then 1 else 0), p.1])
                    bech32Address := unlock_address })
    | _ => .ok none

/-- Claim-side restatement of the classifier rule as the specification words
it: a non-Alias input yields none; otherwise the non-null chain identifier is
computed (from the input's own OutputId when the stored one is null) and the
new outputs are searched for an Alias output carrying that identifier; found
with equal state index yields some false, found with a different state index
yields some true, and absence yields none. -/
def spec_alias_state_transition (input_signing_data : InputSigningData)
    (outputs : List Output) : Option Bool :=
  match input_signing_data.output with
  | .alias alias_input =>
    let alias_id := alias_input.aliasId.orFromOutputId input_signing_data.outputId
    match outputs.find? (fun o =>
      match o with
      | .alias alias_output => alias_output.aliasId = alias_id
      | _ => false) with
    | some (.alias alias_output) =>
      some (decide (alias_output.stateIndex ≠ alias_input.stateIndex))
    | _ => none
  | _ => none

/-- Decidable form of an output qualifying in the Ed25519 branch scan: its
currently required unlock address (no state transition) equals the target. -/
def ed25519Qualifies (current_time : Nat) (target : Address)
    (output_response : OutputWithMetadata) : Bool :=
  match required_and_unlocked_address output_response.output current_time
      output_response.outputId false with
  | .ok (required_unlock_address, _) => required_unlock_address = target
  | .error _ => false

end SenderIssuer

namespace SenderIssuer

/-- C10: for every ExpirationUnlockCondition with timestamp T and every
current time t, return_address_expired t returns some (return address) iff
t >= T; at t = T control has already shifted to the return address, and for
t < T it returns none. -/
theorem C10_return_address_expired_correct (c : ExpirationUnlockCondition)
    (t : Nat) :
    (c.return_address_expired t = some c.return_address ↔ c.timestamp ≤ t) ∧
    c.return_address_expired c.timestamp = some c.return_address ∧
    (t < c.timestamp → c.return_address_expired t = none) := by
  unfold ExpirationUnlockCondition.return_address_expired
  refine ⟨?_, by simp, ?_⟩
  · split_ifs with h
    · simp [ge_iff_le] at h
      simp [h]
    · simp [ge_iff_le] at h
      simp
      omega
  · intro h
    have hne : ¬ (t ≥ c.timestamp) := by omega
    simp [hne]

/-- Witness for C10 at a concrete condition and time. -/
theorem C10_return_address_expired_correct_witness :
    (3 < 5 ∧
      (ExpirationUnlockCondition.mk (.ed25519 0) 5).return_address_expired 3 = none) :=
  ⟨by decide,
    (C10_return_address_expired_correct ⟨.ed25519 0, 5⟩ 3).2.2 (by decide)⟩

/-- The first-match search of the classifier agrees with the find-based
description: helper relating findSome? over the transition matcher to find?
over the chain-identifier test. -/
theorem findSome_transition_eq_find (aid : ChainId) (si : Nat)
    (outputs : List Output) :
    (outputs.findSome? (fun o =>
      match o with
      | .alias alias_output =>
        if alias_output.aliasId = aid then
          if alias_output.stateIndex = si then some (some false)
          else some (some true)
        else none
      | _ => none)).getD none
    = (match outputs.find? (fun o =>
        match o with
        | .alias alias_output => alias_output.aliasId = aid
        | _ => false) with
      | some (.alias alias_output) => some (decide (alias_output.stateIndex ≠ si))
      | _ => none) := by
  induction outputs with
  | nil => rfl
  | cons o rest ih =>
    rcases o with b | alias_output | n | f | amt
    · simpa [List.findSome?_cons, List.find?_cons] using ih
    · by_cases h : alias_output.aliasId = aid
      · by_cases h2 : alias_output.stateIndex = si <;>
          simp [List.findSome?_cons, List.find?_cons, h, h2]
      · simpa [List.findSome?_cons, List.find?_cons, h] using ih
    · simpa [List.findSome?_cons, List.find?_cons] using ih
    · simpa [List.findSome?_cons, List.find?_cons] using ih
    · simpa [List.findSome?_cons, List.find?_cons] using ih

/-- The classifier agrees with its specification-side restatement (helper
shared by the claim theorems and by lemmas about the call sites). -/
theorem alias_state_transition_eq_spec (input_signing_data : InputSigningData)
    (outputs : List Output) :
    alias_state_transition input_signing_data outputs =
      .ok (spec_alias_state_transition input_signing_data outputs) := by
  obtain ⟨o, oid, ch, ba⟩ := input_signing_data
  rcases o with b | alias_input | n | f | amt
  · rfl
  · exact congrArg Except.ok
      (findSome_transition_eq_find (alias_input.aliasId.orFromOutputId oid)
        alias_input.stateIndex outputs)
  · rfl
  · rfl
  · rfl

/-- C1: the alias transition classifier returns none for a non-Alias input;
otherwise, with the non-null chain identifier computed from the input's own
OutputId when the stored one is null, searching the new outputs for an Alias
output with that identifier yields some false on an unchanged state index,
some true on a changed one, and none when the identifier is absent — exactly
the specification-side restatement. -/
theorem C1_alias_state_transition_correct (input_signing_data : InputSigningData)
    (outputs : List Output) :
    alias_state_transition input_signing_data outputs =
      .ok (spec_alias_state_transition input_signing_data outputs) :=
  alias_state_transition_eq_spec input_signing_data outputs

/-- The collector's transition flag always succeeds: the unknown
classification defaults to false. -/
theorem collector_transition_flag_eq (input_signing_data : InputSigningData)
    (outputs : List Output) :
    collector_transition_flag input_signing_data outputs =
      .ok ((spec_alias_state_transition input_signing_data outputs).getD false) := by
  unfold collector_transition_flag
  rw [alias_state_transition_eq_spec]

/-- The matcher's transition flag always succeeds: the unknown classification
defaults to true. -/
theorem matcher_transition_flag_eq (input_signing_data : InputSigningData)
    (outputs : List Output) :
    matcher_transition_flag input_signing_data outputs =
      .ok ((spec_alias_state_transition input_signing_data outputs).getD true) := by
  unfold matcher_transition_flag
  rw [alias_state_transition_eq_spec]

/-- C2: whenever the classifier returns none for an input, the collector path
applies the governance default false while the candidate matcher path applies
the state-transition default true. -/
theorem C2_asymmetric_unknown_defaults (input_signing_data : InputSigningData)
    (outputs : List Output)
    (h : alias_state_transition input_signing_data outputs = .ok none) :
    collector_transition_flag input_signing_data outputs = .ok false ∧
    matcher_transition_flag input_signing_data outputs = .ok true := by
  unfold collector_transition_flag matcher_transition_flag
  rw [h]
  exact ⟨rfl, rfl⟩

/-- Witness for C2 at a concrete non-Alias input (classification unknown). -/
theorem C2_asymmetric_unknown_defaults_witness :
    collector_transition_flag
        ⟨.basic ⟨1, .ed25519 0, none, none⟩, 0, none, .ed25519 0⟩ [] = .ok false ∧
    matcher_transition_flag
        ⟨.basic ⟨1, .ed25519 0, none, none⟩, 0, none, .ed25519 0⟩ [] = .ok true :=
  C2_asymmetric_unknown_defaults
    ⟨.basic ⟨1, .ed25519 0, none, none⟩, 0, none, .ed25519 0⟩ [] rfl

/-- Membership after one guarded insertion: the element was already collected,
or it is the inserted feature address and was neither unlocked nor
collected. -/
theorem mem_addRequiredAddress {x : Address} {unlocked required : List Address}
    {a? : Option Address}
    (hx : x ∈ addRequiredAddress unlocked required a?) :
    x ∈ required ∨ (a? = some x ∧ x ∉ unlocked) := by
  rcases a? with _ | a
  · exact Or.inl hx
  · rw [addRequiredAddress] at hx
    split_ifs at hx with h1 h2
    · exact Or.inl hx
    · exact Or.inl hx
    · rcases List.mem_append.mp hx with h | h
      · exact Or.inl h
      · simp at h
        subst h
        exact Or.inr ⟨rfl, h2⟩

/-- Every address the required-addresses loop produces either was in the
accumulator or is the Sender feature address of one of the outputs or the
Issuer feature address of an output that is a new chain creation. -/
theorem requiredAddressesLoop_mem_source (unlocked : List Address) :
    ∀ (outputs : List Output) (acc : List Address) (x : Address),
      x ∈ requiredAddressesLoop unlocked outputs acc →
      x ∈ acc ∨ (∃ o ∈ outputs, o.sender_feature = some x) ∨
        ∃ o ∈ outputs, utxo_chain_creation o = true ∧ o.issuer_feature = some x := by
  intro outputs
  induction outputs with
  | nil =>
    intro acc x hx
    exact Or.inl hx
  | cons o rest ih =>
    intro acc x hx
    rw [requiredAddressesLoop] at hx
    rcases ih _ x hx with h | h | h
    · by_cases hc : utxo_chain_creation o
      · rw [if_pos hc] at h
        rcases mem_addRequiredAddress h with h' | ⟨hiss, _⟩
        · rcases mem_addRequiredAddress h' with h'' | ⟨hsen, _⟩
          · exact Or.inl h''
          · exact Or.inr (Or.inl ⟨o, List.mem_cons_self o rest, hsen⟩)
        · exact Or.inr (Or.inr ⟨o, List.mem_cons_self o rest, hc, hiss⟩)
      · rw [if_neg hc] at h
        rcases mem_addRequiredAddress h with h' | ⟨hsen, _⟩
        · exact Or.inl h'
        · exact Or.inr (Or.inl ⟨o, List.mem_cons_self o rest, hsen⟩)
    · obtain ⟨o', ho', hs⟩ := h
      exact Or.inr (Or.inl ⟨o', List.mem_cons_of_mem o ho', hs⟩)
    · obtain ⟨o', ho', hc, hi⟩ := h
      exact Or.inr (Or.inr ⟨o', List.mem_cons_of_mem o ho', hc, hi⟩)

/-- Every address the required-addresses loop produces beyond the accumulator
avoids the unlocked set. -/
theorem requiredAddressesLoop_not_unlocked (unlocked : List Address) :
    ∀ (outputs : List Output) (acc : List Address),
      (∀ y ∈ acc, y ∉ unlocked) →
      ∀ x ∈ requiredAddressesLoop unlocked outputs acc, x ∉ unlocked := by
  intro outputs
  induction outputs with
  | nil =>
    intro acc hacc x hx
    exact hacc x hx
  | cons o rest ih =>
    intro acc hacc x hx
    rw [requiredAddressesLoop] at hx
    refine ih _ ?_ x hx
    intro y hy
    by_cases hc : utxo_chain_creation o
    · rw [if_pos hc] at hy
      rcases mem_addRequiredAddress hy with hy' | ⟨_, hnu⟩
      · rcases mem_addRequiredAddress hy' with hy'' | ⟨_, hnu⟩
        · exact hacc y hy''
        · exact hnu
      · exact hnu
    · rw [if_neg hc] at hy
      rcases mem_addRequiredAddress hy with hy' | ⟨_, hnu⟩
      · exact hacc y hy'
      · exact hnu

/-- C3: an address in the collector's required set always traces back to a
Sender feature of one of the new outputs or to an Issuer feature of an output
that is an Alias or Nft output with a null chain identifier (a new chain
creation); issuer features of continued chains or of other output kinds never
contribute. -/
theorem C3_issuer_only_on_new_chains (selected_inputs : List InputSigningData)
    (outputs : List Output) (current_time : Nat) (required : List Address)
    (hreq : get_required_addresses_for_sender_and_issuer selected_inputs outputs
      current_time = .ok required)
    (a : Address) (ha : a ∈ required) :
    (∃ o ∈ outputs, o.sender_feature = some a) ∨
      ∃ o ∈ outputs, utxo_chain_creation o = true ∧ o.issuer_feature = some a := by
  unfold get_required_addresses_for_sender_and_issuer at hreq
  cases hunl : unlockedAddressesLoop outputs current_time selected_inputs [] with
  | error e =>
    rw [hunl] at hreq
    exact absurd hreq (by simp)
  | ok unlocked =>
    rw [hunl] at hreq
    simp only [Except.ok.injEq] at hreq
    subst hreq
    rcases requiredAddressesLoop_mem_source unlocked outputs [] a ha with h | h | h
    · exact absurd h (by simp)
    · exact Or.inl h
    · exact Or.inr h

/-- Witness for C3: a single new Alias output with null chain identifier and
issuer address yields that address in the required set, traced to the new
chain creation. -/
theorem C3_issuer_only_on_new_chains_witness :
    (∃ o ∈ [Output.alias ⟨1, .null, 0, .ed25519 1, .ed25519 2, none,
        some (.ed25519 7)⟩], o.sender_feature = some (.ed25519 7)) ∨
      ∃ o ∈ [Output.alias ⟨1, .null, 0, .ed25519 1, .ed25519 2, none,
        some (.ed25519 7)⟩],
        utxo_chain_creation o = true ∧ o.issuer_feature = some (.ed25519 7) :=
  C3_issuer_only_on_new_chains []
    [Output.alias ⟨1, .null, 0, .ed25519 1, .ed25519 2, none, some (.ed25519 7)⟩]
    0 [.ed25519 7] rfl (.ed25519 7) (by simp)

/-- C7: the collector's required set is disjoint from the unlocked set it
computes from the selected inputs. -/
theorem C7_required_disjoint_unlocked (selected_inputs : List InputSigningData)
    (outputs : List Output) (current_time : Nat)
    (unlocked required : List Address)
    (hunl : unlockedAddressesLoop outputs current_time selected_inputs [] =
      .ok unlocked)
    (hreq : get_required_addresses_for_sender_and_issuer selected_inputs outputs
      current_time = .ok required)
    (a : Address) (ha : a ∈ required) : a ∉ unlocked := by
  unfold get_required_addresses_for_sender_and_issuer at hreq
  rw [hunl] at hreq
  simp only [Except.ok.injEq] at hreq
  subst hreq
  exact requiredAddressesLoop_not_unlocked unlocked outputs [] (by simp) a ha

/-- Witness for C7: a basic output with a sender feature and an empty
selection give a nonempty required set disjoint from the empty unlocked
set. -/
theorem C7_required_disjoint_unlocked_witness :
    Address.ed25519 3 ∉ ([] : List Address) :=
  C7_required_disjoint_unlocked []
    [Output.basic ⟨1, .ed25519 9, none, some (.ed25519 3)⟩] 0 [] [.ed25519 3]
    rfl rfl (.ed25519 3) (by simp)

/-- The addresses loop only appends to the selection list and records exactly
the OutputIds of the appended inputs. -/
theorem addressesLoop_append (inputs : List InputSigningData)
    (outputs : List Output) (current_time : Nat) :
    ∀ (addrs : List Address) (st : SelectionState),
      ∃ tl : List InputSigningData,
        (addressesLoop inputs outputs current_time addrs st).1.selected_inputs =
          st.selected_inputs ++ tl ∧
        (addressesLoop inputs outputs current_time addrs
            st).1.selected_inputs_output_ids =
          st.selected_inputs_output_ids ++ tl.map InputSigningData.output_id := by
  intro addrs
  induction addrs with
  | nil =>
    intro st
    exact ⟨[], by simp [addressesLoop], by simp [addressesLoop]⟩
  | cons a rest ih =>
    intro st
    rw [addressesLoop]
    cases h1 : scanSelected outputs current_time a st.selected_inputs with
    | error e => exact ⟨[], by simp, by simp⟩
    | ok b =>
      cases b with
      | true => exact ih st
      | false =>
        cases h2 : scanCandidates outputs current_time a
            st.selected_inputs_output_ids inputs with
        | error e => exact ⟨[], by simp, by simp⟩
        | ok r =>
          cases r with
          | none => exact ⟨[], by simp, by simp⟩
          | some isd =>
            obtain ⟨tl, hl, hi⟩ := ih
              { selected_inputs := st.selected_inputs ++ [isd]
                selected_inputs_output_ids :=
                  st.selected_inputs_output_ids ++ [isd.output_id] }
            exact ⟨isd :: tl, by simpa using hl, by simpa using hi⟩

/-- C9: the candidate matcher leaves the outputs vector unchanged and only
appends to the selection list: the pre-existing entries stay in front of the
final list, whether the call succeeds or fails. -/
theorem C9_matcher_frame (inputs : List InputSigningData) (st : SelectionState)
    (outputs : List Output) (current_time : Nat) :
    (select_inputs_for_sender_and_issuer inputs st outputs current_time).2.1 =
      outputs ∧
    ∃ tl : List InputSigningData,
      (select_inputs_for_sender_and_issuer inputs st outputs
          current_time).1.selected_inputs = st.selected_inputs ++ tl := by
  unfold select_inputs_for_sender_and_issuer
  cases h : get_required_addresses_for_sender_and_issuer st.selected_inputs
      outputs current_time with
  | error e => exact ⟨rfl, [], by simp⟩
  | ok required =>
    obtain ⟨tl, hl, _⟩ := addressesLoop_append inputs outputs current_time
      required st
    exact ⟨rfl, tl, hl⟩

/-- The only error the modelled required-and-unlocked-address helper produces
is the invalid-output-kind one (a Treasury output offered as an input). -/
theorem required_and_unlocked_address_error {output : Output}
    {current_time : Nat} {output_id : OutputId} {flag : Bool} {e : ClientError}
    (h : required_and_unlocked_address output current_time output_id flag =
      .error e) :
    e = .invalidOutputKind := by
  rcases output with b | a | n | f | amt <;>
    simp_all [required_and_unlocked_address]

/-- The already-selected scan never fails with a MissingInput error: its only
error source is the unlock-address computation. -/
theorem scanSelected_error (outputs : List Output) (current_time : Nat)
    (required_address : Address) :
    ∀ (sel : List InputSigningData) (e : ClientError),
      scanSelected outputs current_time required_address sel = .error e →
      e = .invalidOutputKind := by
  intro sel
  induction sel with
  | nil =>
    intro e h
    exact absurd h (by simp [scanSelected])
  | cons i rest ih =>
    intro e h
    rw [scanSelected] at h
    simp only [matcher_transition_flag_eq] at h
    cases hr : required_and_unlocked_address i.output current_time i.output_id
        ((spec_alias_state_transition i outputs).getD true) with
    | error e' =>
      simp only [hr, Except.error.injEq] at h
      subst h
      exact required_and_unlocked_address_error hr
    | ok p =>
      obtain ⟨r, u⟩ := p
      rcases u with _ | a
      · simp only [hr] at h
        split_ifs at h
        exact ih e h
      · simp only [hr] at h
        split_ifs at h
        exact ih e h

/-- The candidate-pool scan never fails with a MissingInput error either. -/
theorem scanCandidates_error (outputs : List Output) (current_time : Nat)
    (required_address : Address) (selected_ids : List OutputId) :
    ∀ (pool : List InputSigningData) (e : ClientError),
      scanCandidates outputs current_time required_address selected_ids pool =
        .error e →
      e = .invalidOutputKind := by
  intro pool
  induction pool with
  | nil =>
    intro e h
    exact absurd h (by simp [scanCandidates])
  | cons i rest ih =>
    intro e h
    rw [scanCandidates] at h
    by_cases hid : i.output_id ∈ selected_ids
    · rw [if_pos hid] at h
      exact ih e h
    · rw [if_neg hid] at h
      simp only [matcher_transition_flag_eq] at h
      cases hr : required_and_unlocked_address i.output current_time
          i.output_id ((spec_alias_state_transition i outputs).getD true) with
      | error e' =>
        simp only [hr, Except.error.injEq] at h
        subst h
        exact required_and_unlocked_address_error hr
      | ok p =>
        obtain ⟨r, u⟩ := p
        rcases u with _ | a
        · simp only [hr] at h
          split_ifs at h
          exact ih e h
        · simp only [hr] at h
          split_ifs at h
          exact ih e h

/-- The unlocked-addresses loop never fails with a MissingInput error. -/
theorem unlockedAddressesLoop_error (outputs : List Output)
    (current_time : Nat) :
    ∀ (sel : List InputSigningData) (acc : List Address) (e : ClientError),
      unlockedAddressesLoop outputs current_time sel acc = .error e →
      e = .invalidOutputKind := by
  intro sel
  induction sel with
  | nil =>
    intro acc e h
    exact absurd h (by simp [unlockedAddressesLoop])
  | cons i rest ih =>
    intro acc e h
    rw [unlockedAddressesLoop] at h
    simp only [collector_transition_flag_eq] at h
    cases hr : required_and_unlocked_address i.output current_time i.output_id
        ((spec_alias_state_transition i outputs).getD false) with
    | error e' =>
      simp only [hr, Except.error.injEq] at h
      subst h
      exact required_and_unlocked_address_error hr
    | ok p =>
      obtain ⟨r, u⟩ := p
      simp only [hr] at h
      exact ih _ e h

/-- The collector never fails with a MissingInput error. -/
theorem get_required_error (selected_inputs : List InputSigningData)
    (outputs : List Output) (current_time : Nat) (e : ClientError)
    (h : get_required_addresses_for_sender_and_issuer selected_inputs outputs
      current_time = .error e) :
    e = .invalidOutputKind := by
  unfold get_required_addresses_for_sender_and_issuer at h
  cases hu : unlockedAddressesLoop outputs current_time selected_inputs [] with
  | error e' =>
    rw [hu] at h
    simp only [Except.error.injEq] at h
    subst h
    exact unlockedAddressesLoop_error outputs current_time selected_inputs []
      e' hu
  | ok u =>
    rw [hu] at h
    exact absurd h (by simp)

/-- When the addresses loop fails with MissingInput for an address, the
required list splits at that address, re-running the loop on the addresses
before it reproduces the returned state exactly (nothing is rolled back), and
both scans for the failing address fail at that returned state. -/
theorem addressesLoop_missing_input_split (inputs : List InputSigningData)
    (outputs : List Output) (current_time : Nat) :
    ∀ (addrs : List Address) (st st' : SelectionState) (addr : Address),
      addressesLoop inputs outputs current_time addrs st =
        (st', .error (.missingInput addr)) →
      ∃ done rest, addrs = done ++ addr :: rest ∧
        addressesLoop inputs outputs current_time done st = (st', .ok ()) ∧
        scanSelected outputs current_time addr st'.selected_inputs =
          .ok false ∧
        scanCandidates outputs current_time addr
          st'.selected_inputs_output_ids inputs = .ok none := by
  intro addrs
  induction addrs with
  | nil =>
    intro st st' addr h
    rw [addressesLoop] at h
    exact absurd h (by simp)
  | cons a rest ih =>
    intro st st' addr h
    rw [addressesLoop] at h
    cases h1 : scanSelected outputs current_time a st.selected_inputs with
    | error e =>
      simp only [h1, Prod.mk.injEq, Except.error.injEq] at h
      obtain ⟨hst, he⟩ := h
      have hinv := scanSelected_error outputs current_time a
        st.selected_inputs e h1
      rw [he] at hinv
      exact ClientError.noConfusion hinv
    | ok b =>
      cases b with
      | true =>
        simp only [h1] at h
        obtain ⟨done, rest', hsplit, hloop, hsel, hcand⟩ := ih st st' addr h
        refine ⟨a :: done, rest', by rw [hsplit, List.cons_append], ?_, hsel,
          hcand⟩
        rw [addressesLoop, h1]
        exact hloop
      | false =>
        simp only [h1] at h
        cases h2 : scanCandidates outputs current_time a
            st.selected_inputs_output_ids inputs with
        | error e =>
          simp only [h2, Prod.mk.injEq, Except.error.injEq] at h
          obtain ⟨hst, he⟩ := h
          have hinv := scanCandidates_error outputs current_time a
            st.selected_inputs_output_ids inputs e h2
          rw [he] at hinv
          exact ClientError.noConfusion hinv
        | ok r =>
          cases r with
          | some isd =>
            simp only [h2] at h
            obtain ⟨done, rest', hsplit, hloop, hsel, hcand⟩ := ih
              { selected_inputs := st.selected_inputs ++ [isd]
                selected_inputs_output_ids :=
                  st.selected_inputs_output_ids ++ [isd.output_id] }
              st' addr h
            refine ⟨a :: done, rest', by rw [hsplit, List.cons_append], ?_,
              hsel, hcand⟩
            rw [addressesLoop, h1, h2]
            exact hloop
          | none =>
            simp only [h2, Prod.mk.injEq, Except.error.injEq,
              ClientError.missingInput.injEq] at h
            obtain ⟨hst, haddr⟩ := h
            subst hst
            subst haddr
            exact ⟨[], rest, rfl, by rw [addressesLoop], h1, h2⟩

/-- C8: when the candidate matcher fails with MissingInput, the entries it
appended while resolving the earlier addresses (and their recorded OutputIds)
remain in place: the returned state is exactly the partial state reached by
successfully resolving the required addresses before the failing one — not a
rolled-back initial state — and the failing address finds no match in that
returned state. -/
theorem C8_matcher_not_atomic (inputs : List InputSigningData)
    (st : SelectionState) (outputs : List Output) (current_time : Nat)
    (addr : Address)
    (herr : (select_inputs_for_sender_and_issuer inputs st outputs
        current_time).2.2 = .error (.missingInput addr)) :
    ∃ required done rest,
      get_required_addresses_for_sender_and_issuer st.selected_inputs outputs
        current_time = .ok required ∧
      required = done ++ addr :: rest ∧
      addressesLoop inputs outputs current_time done st =
        ((select_inputs_for_sender_and_issuer inputs st outputs
          current_time).1, .ok ()) ∧
      scanSelected outputs current_time addr
        (select_inputs_for_sender_and_issuer inputs st outputs
          current_time).1.selected_inputs = .ok false ∧
      scanCandidates outputs current_time addr
        (select_inputs_for_sender_and_issuer inputs st outputs
          current_time).1.selected_inputs_output_ids inputs = .ok none ∧
      ∃ tl : List InputSigningData,
        (select_inputs_for_sender_and_issuer inputs st outputs
          current_time).1.selected_inputs = st.selected_inputs ++ tl ∧
        (select_inputs_for_sender_and_issuer inputs st outputs
          current_time).1.selected_inputs_output_ids =
          st.selected_inputs_output_ids ++ tl.map InputSigningData.output_id := by
  unfold select_inputs_for_sender_and_issuer at herr ⊢
  cases hreq : get_required_addresses_for_sender_and_issuer st.selected_inputs
      outputs current_time with
  | error e =>
    simp only [hreq, Except.error.injEq] at herr
    have hinv := get_required_error st.selected_inputs outputs current_time
      e hreq
    rw [herr] at hinv
    exact ClientError.noConfusion hinv
  | ok required =>
    simp only [hreq] at herr ⊢
    have hpair : addressesLoop inputs outputs current_time required st =
        ((addressesLoop inputs outputs current_time required st).1,
          .error (.missingInput addr)) :=
      Prod.ext_iff.mpr ⟨rfl, herr⟩
    obtain ⟨done, rest, hsplit, hloop, hsel, hcand⟩ :=
      addressesLoop_missing_input_split inputs outputs current_time required
        st (addressesLoop inputs outputs current_time required st).1 addr hpair
    obtain ⟨tl, htl, hti⟩ :=
      addressesLoop_append inputs outputs current_time required st
    exact ⟨required, done, rest, rfl, hsplit, hloop, hsel, hcand, tl, htl, hti⟩

/-- Witness for C8: resolving two sender requirements against a pool that can
satisfy only the first appends that input, then fails with MissingInput for
the second; the returned selection still holds the appended input and its
recorded OutputId, and re-running the loop on the first address alone
reproduces that returned state. -/
theorem C8_matcher_not_atomic_witness :
    (select_inputs_for_sender_and_issuer
        [⟨.basic ⟨10, .ed25519 1, none, none⟩, 100, none, .ed25519 1⟩]
        ⟨[], []⟩
        [.basic ⟨10, .ed25519 9, none, some (.ed25519 1)⟩,
         .basic ⟨10, .ed25519 9, none, some (.ed25519 2)⟩]
        0).2.2 = .error (.missingInput (.ed25519 2)) ∧
    (select_inputs_for_sender_and_issuer
        [⟨.basic ⟨10, .ed25519 1, none, none⟩, 100, none, .ed25519 1⟩]
        ⟨[], []⟩
        [.basic ⟨10, .ed25519 9, none, some (.ed25519 1)⟩,
         .basic ⟨10, .ed25519 9, none, some (.ed25519 2)⟩]
        0).1.selected_inputs =
      [⟨.basic ⟨10, .ed25519 1, none, none⟩, 100, none, .ed25519 1⟩] ∧
    (select_inputs_for_sender_and_issuer
        [⟨.basic ⟨10, .ed25519 1, none, none⟩, 100, none, .ed25519 1⟩]
        ⟨[], []⟩
        [.basic ⟨10, .ed25519 9, none, some (.ed25519 1)⟩,
         .basic ⟨10, .ed25519 9, none, some (.ed25519 2)⟩]
        0).1.selected_inputs_output_ids = [100] ∧
    ∃ required done rest,
      get_required_addresses_for_sender_and_issuer []
        [.basic ⟨10, .ed25519 9, none, some (.ed25519 1)⟩,
         .basic ⟨10, .ed25519 9, none, some (.ed25519 2)⟩] 0 = .ok required ∧
      required = done ++ (.ed25519 2) :: rest ∧
      addressesLoop
        [⟨.basic ⟨10, .ed25519 1, none, none⟩, 100, none, .ed25519 1⟩]
        [.basic ⟨10, .ed25519 9, none, some (.ed25519 1)⟩,
         .basic ⟨10, .ed25519 9, none, some (.ed25519 2)⟩]
        0 done ⟨[], []⟩ =
        (⟨[⟨.basic ⟨10, .ed25519 1, none, none⟩, 100, none, .ed25519 1⟩],
          [100]⟩, .ok ()) ∧
      scanSelected
        [.basic ⟨10, .ed25519 9, none, some (.ed25519 1)⟩,
         .basic ⟨10, .ed25519 9, none, some (.ed25519 2)⟩]
        0 (.ed25519 2)
        [⟨.basic ⟨10, .ed25519 1, none, none⟩, 100, none, .ed25519 1⟩] =
        .ok false ∧
      scanCandidates
        [.basic ⟨10, .ed25519 9, none, some (.ed25519 1)⟩,
         .basic ⟨10, .ed25519 9, none, some (.ed25519 2)⟩]
        0 (.ed25519 2) [100]
        [⟨.basic ⟨10, .ed25519 1, none, none⟩, 100, none, .ed25519 1⟩] =
        .ok none ∧
      ∃ tl : List InputSigningData,
        [⟨.basic ⟨10, .ed25519 1, none, none⟩, 100, none,
          (.ed25519 1 : Address)⟩] = [] ++ tl ∧
        [(100 : OutputId)] = [] ++ tl.map InputSigningData.output_id :=
  ⟨rfl, rfl, rfl,
    C8_matcher_not_atomic
      [⟨.basic ⟨10, .ed25519 1, none, none⟩, 100, none, .ed25519 1⟩]
      ⟨[], []⟩
      [.basic ⟨10, .ed25519 9, none, some (.ed25519 1)⟩,
       .basic ⟨10, .ed25519 9, none, some (.ed25519 2)⟩]
      0 (.ed25519 2) rfl⟩

/-- A candidate the pool scan returns was not among the already recorded
OutputIds: the scan skips recorded ids before matching. -/
theorem scanCandidates_some_not_mem (outputs : List Output) (current_time : Nat)
    (required_address : Address) (selected_ids : List OutputId) :
    ∀ (pool : List InputSigningData) (isd : InputSigningData),
      scanCandidates outputs current_time required_address selected_ids pool =
        .ok (some isd) →
      isd.output_id ∉ selected_ids := by
  intro pool
  induction pool with
  | nil =>
    intro isd h
    exact absurd h (by simp [scanCandidates])
  | cons i rest ih =>
    intro isd h
    rw [scanCandidates] at h
    by_cases hid : i.output_id ∈ selected_ids
    · rw [if_pos hid] at h
      exact ih isd h
    · rw [if_neg hid] at h
      simp only [matcher_transition_flag_eq] at h
      cases hr : required_and_unlocked_address i.output current_time i.output_id
          ((spec_alias_state_transition i outputs).getD true) with
      | error e =>
        simp only [hr] at h
        exact Except.noConfusion h
      | ok p =>
        obtain ⟨r, u⟩ := p
        rcases u with _ | a
        · simp only [hr] at h
          split_ifs at h with he
          · simp only [Except.ok.injEq, Option.some.injEq] at h
            subst h
            exact hid
          · exact ih isd h
        · simp only [hr] at h
          split_ifs at h with he he2
          · simp only [Except.ok.injEq, Option.some.injEq] at h
            subst h
            exact hid
          · simp only [Except.ok.injEq, Option.some.injEq] at h
            subst h
            exact hid
          · exact ih isd h

/-- Under a consistent dedup set, the addresses loop keeps every OutputId
count in the selection at or below its initial count or one. -/
theorem addressesLoop_count_le (inputs : List InputSigningData)
    (outputs : List Output) (current_time : Nat) :
    ∀ (addrs : List Address) (st : SelectionState),
      (∀ x, x ∈ st.selected_inputs_output_ids ↔
        x ∈ st.selected_inputs.map InputSigningData.output_id) →
      ∀ oid : OutputId,
        ((addressesLoop inputs outputs current_time addrs
            st).1.selected_inputs.map InputSigningData.output_id).count oid ≤
          max ((st.selected_inputs.map InputSigningData.output_id).count oid) 1 := by
  intro addrs
  induction addrs with
  | nil =>
    intro st hcons oid
    exact le_max_left _ _
  | cons a rest ih =>
    intro st hcons oid
    rw [addressesLoop]
    cases h1 : scanSelected outputs current_time a st.selected_inputs with
    | error e => exact le_max_left _ _
    | ok b =>
      cases b with
      | true => exact ih st hcons oid
      | false =>
        cases h2 : scanCandidates outputs current_time a
            st.selected_inputs_output_ids inputs with
        | error e => exact le_max_left _ _
        | ok r =>
          cases r with
          | none => exact le_max_left _ _
          | some isd =>
            have hnotmem : isd.output_id ∉ st.selected_inputs_output_ids :=
              scanCandidates_some_not_mem outputs current_time a
                st.selected_inputs_output_ids inputs isd h2
            have hnotmap : isd.output_id ∉
                st.selected_inputs.map InputSigningData.output_id :=
              fun hm => hnotmem ((hcons _).mpr hm)
            have hcons' : ∀ x,
                x ∈ (st.selected_inputs_output_ids ++ [isd.output_id]) ↔
                x ∈ ((st.selected_inputs ++ [isd]).map InputSigningData.output_id) := by
              intro x
              simp only [List.mem_append, List.map_append, List.map_cons,
                List.map_nil, List.mem_singleton, hcons x]
            have hrec := ih
              { selected_inputs := st.selected_inputs ++ [isd]
                selected_inputs_output_ids :=
                  st.selected_inputs_output_ids ++ [isd.output_id] }
              hcons' oid
            refine le_trans hrec ?_
            by_cases heq : oid = isd.output_id
            · have h0 : (st.selected_inputs.map InputSigningData.output_id).count
                  oid = 0 :=
                List.count_eq_zero_of_not_mem (fun hm => hnotmap (heq ▸ hm))
              have h1' : (((st.selected_inputs ++ [isd]).map
                  InputSigningData.output_id).count oid) = 1 := by
                simp [List.count_append, heq,
                  List.count_eq_zero_of_not_mem hnotmap]
              rw [h1', h0]
              simp
            · have hz : ([isd.output_id].count oid) = 0 :=
                List.count_eq_zero.mpr (by simpa using heq)
              have hc : ((st.selected_inputs ++ [isd]).map
                  InputSigningData.output_id).count oid =
                  (st.selected_inputs.map InputSigningData.output_id).count oid := by
                simp [List.count_append, hz]
              rw [hc]

/-- C6: from a consistent selection state, the candidate matcher never records
the same OutputId twice: any id not initially present occurs at most once in
the final selection list, duplicate pool entries notwithstanding. -/
theorem C6_matcher_dedup (inputs : List InputSigningData) (st : SelectionState)
    (outputs : List Output) (current_time : Nat)
    (hcons : ∀ x, x ∈ st.selected_inputs_output_ids ↔
      x ∈ st.selected_inputs.map InputSigningData.output_id)
    (oid : OutputId)
    (h0 : oid ∉ st.selected_inputs.map InputSigningData.output_id) :
    (((select_inputs_for_sender_and_issuer inputs st outputs
        current_time).1.selected_inputs).map InputSigningData.output_id).count
      oid ≤ 1 := by
  unfold select_inputs_for_sender_and_issuer
  cases h : get_required_addresses_for_sender_and_issuer st.selected_inputs
      outputs current_time with
  | error e =>
    show (st.selected_inputs.map InputSigningData.output_id).count oid ≤ 1
    rw [List.count_eq_zero_of_not_mem h0]
    exact Nat.zero_le 1
  | ok required =>
    have hcount := addressesLoop_count_le inputs outputs current_time required
      st hcons oid
    rw [List.count_eq_zero_of_not_mem h0] at hcount
    simpa using hcount

/-- Witness for C6: a pool holding the same input twice yields at most one
entry for its OutputId in the final selection. -/
theorem C6_matcher_dedup_witness :
    (((select_inputs_for_sender_and_issuer
        [⟨.basic ⟨10, .ed25519 1, none, none⟩, 100, none, .ed25519 1⟩,
         ⟨.basic ⟨10, .ed25519 1, none, none⟩, 100, none, .ed25519 1⟩]
        ⟨[], []⟩ [.basic ⟨10, .ed25519 9, none, some (.ed25519 1)⟩]
        0).1.selected_inputs).map InputSigningData.output_id).count 100 ≤ 1 :=
  C6_matcher_dedup
    [⟨.basic ⟨10, .ed25519 1, none, none⟩, 100, none, .ed25519 1⟩,
     ⟨.basic ⟨10, .ed25519 1, none, none⟩, 100, none, .ed25519 1⟩]
    ⟨[], []⟩ [.basic ⟨10, .ed25519 9, none, some (.ed25519 1)⟩] 0
    (by simp) 100 (by simp)

/-- Over basic outputs the Ed25519 branch scan never errors and returns the
first qualifying output. -/
theorem ed25519OutputScan_basic (current_time : Nat) (target : Address) :
    ∀ (address_outputs : List OutputWithMetadata),
      (∀ r ∈ address_outputs, ∃ b, r.output = .basic b) →
      ed25519OutputScan current_time target address_outputs =
        .ok (address_outputs.find? (ed25519Qualifies current_time target)) := by
  intro address_outputs
  induction address_outputs with
  | nil => intro _; rfl
  | cons r rest ih =>
    intro hb
    obtain ⟨b, hbr⟩ := hb r (List.mem_cons_self r rest)
    have hqe : ed25519Qualifies current_time target r =
        decide (lockedAddress b.address b.expiration current_time = target) := by
      unfold ed25519Qualifies
      rw [hbr]
      rfl
    rw [ed25519OutputScan, List.find?_cons, hqe, hbr]
    by_cases hq : lockedAddress b.address b.expiration current_time = target
    · simp [required_and_unlocked_address, hq]
    · simp only [required_and_unlocked_address, decide_eq_false hq]
      rw [if_neg hq]
      simpa using ih (fun r' hr' => hb r' (List.mem_cons_of_mem r hr'))

/-- C4: the Ed25519 branch of the ledger fallback resolver fails with the
missing-secret-manager error when no secret manager is configured; with one
configured it fails with the missing-input-with-Ed25519-address error when the
derivation search exhausts its range or when no returned basic output
currently requires the target address; otherwise it uses the first qualifying
output, recording the found derivation path. -/
theorem C4_resolver_ed25519_branch (search_result : Option (Nat × Bool))
    (address_outputs : List OutputWithMetadata) (coin_type account_index : Nat)
    (target : Address) (current_time : Nat) :
    (resolve_ed25519_required_address none search_result address_outputs
        coin_type account_index target current_time =
      .error .missingSecretManager) ∧
    (resolve_ed25519_required_address (some ()) none address_outputs coin_type
        account_index target current_time =
      .error .missingInputWithEd25519Address) ∧
    (∀ address_index internal,
      (ed25519OutputScan current_time target address_outputs = .ok none →
        resolve_ed25519_required_address (some ()) (some (address_index, internal))
            address_outputs coin_type account_index target current_time =
          .error .missingInputWithEd25519Address) ∧
      (∀ output_response,
        ed25519OutputScan current_time target address_outputs =
          .ok (some output_response) →
        resolve_ed25519_required_address (some ()) (some (address_index, internal))
            address_outputs coin_type account_index target current_time =
          .ok { output := output_response.output
                outputId := output_response.outputId
                chain := some [HD_WALLET_TYPE, coin_type, account_index,
                  (if internal then 1 else 0), address_index]
                bech32Address := target })) ∧
    ((∀ r ∈ address_outputs, ∃ b, r.output = .basic b) →
      ed25519OutputScan current_time target address_outputs =
        .ok (address_outputs.find? (ed25519Qualifies current_time target))) := by
  refine ⟨rfl, rfl, ?_, ed25519OutputScan_basic current_time target address_outputs⟩
  intro address_index internal
  constructor
  · intro h
    unfold resolve_ed25519_required_address
    rw [h]
  · intro output_response h
    unfold resolve_ed25519_required_address
    rw [h]

/-- Witness for C4: the no-secret-manager failure, the exhausted-search
failure, the no-qualifying-output failure, and a successful resolution at a
concrete qualifying basic output. -/
theorem C4_resolver_ed25519_branch_witness :
    resolve_ed25519_required_address none none [] 4218 0 (.ed25519 5) 0 =
      .error .missingSecretManager ∧
    resolve_ed25519_required_address (some ()) none [] 4218 0 (.ed25519 5) 0 =
      .error .missingInputWithEd25519Address ∧
    resolve_ed25519_required_address (some ()) (some (2, true)) [] 4218 0
        (.ed25519 5) 0 = .error .missingInputWithEd25519Address ∧
    resolve_ed25519_required_address (some ()) (some (2, true))
        [⟨.basic ⟨7, .ed25519 5, none, none⟩, 33⟩] 4218 0 (.ed25519 5) 0 =
      .ok { output := .basic ⟨7, .ed25519 5, none, none⟩
            outputId := 33
            chain := some [HD_WALLET_TYPE, 4218, 0, 1, 2]
            bech32Address := .ed25519 5 } :=
  ⟨(C4_resolver_ed25519_branch none [] 4218 0 (.ed25519 5) 0).1,
   (C4_resolver_ed25519_branch none [] 4218 0 (.ed25519 5) 0).2.1,
   ((C4_resolver_ed25519_branch (some (2, true)) [] 4218 0 (.ed25519 5)
      0).2.2.1 2 true).1 rfl,
   ((C4_resolver_ed25519_branch (some (2, true))
      [⟨.basic ⟨7, .ed25519 5, none, none⟩, 33⟩] 4218 0 (.ed25519 5)
      0).2.2.1 2 true).2 ⟨.basic ⟨7, .ed25519 5, none, none⟩, 33⟩ rfl⟩

/-- Counterexample to C5: with a secret manager configured and the fetched
alias chain controlled by an Alias address (a target not derivable from a
private key), the resolver stores no derivation path at all, not the fixed
placeholder path with index 0 on the external chain the claim asserts. -/
theorem C5_resolver_alias_branch_counterexample :
    resolve_alias_required_address [] [] (.chain 9)
        (.alias ⟨5, .chain 9, 0, .alias (.chain 3), .ed25519 2, none, none⟩) 11
        (some ()) none 4218 0 =
      .ok (some { output := .alias ⟨5, .chain 9, 0, .alias (.chain 3),
                    .ed25519 2, none, none⟩
                  outputId := 11
                  chain := none
                  bech32Address := .alias (.chain 3) }) ∧
    (none : Option (List Nat)) ≠
      some [HD_WALLET_TYPE, 4218, 0, 0, 0] := by
  exact ⟨rfl, by simp⟩

/-- C5 as amended: the requirement is skipped when a same-chain-identifier
Alias output is already among the known or resolved inputs; otherwise the
fetched output's state controller is the unlock target and the stored
derivation path is the searched one when the target is Ed25519 and a secret
manager is configured, the fixed placeholder path (index 0, external chain)
when no secret manager is configured, and absent when a secret manager is
configured but the target is not Ed25519. -/
theorem C5_resolver_alias_branch_amended
    (utxo_chain_inputs required_inputs : List InputSigningData)
    (alias_id : ChainId) (alias_output : AliasOutput)
    (fetched_output_id : OutputId) (search_result : Option (Nat × Bool))
    (coin_type account_index : Nat) :
    ((utxo_chain_inputs ++ required_inputs).any (fun input =>
        match input.output with
        | .alias ao => alias_id = ao.aliasId
        | _ => false) = true →
      ∀ secret_manager,
        resolve_alias_required_address utxo_chain_inputs required_inputs
          alias_id (.alias alias_output) fetched_output_id secret_manager
          search_result coin_type account_index = .ok none) ∧
    ((utxo_chain_inputs ++ required_inputs).any (fun input =>
        match input.output with
        | .alias ao => alias_id = ao.aliasId
        | _ => false) = false →
      (resolve_alias_required_address utxo_chain_inputs required_inputs
          alias_id (.alias alias_output) fetched_output_id none search_result
          coin_type account_index =
        .ok (some { output := .alias alias_output
                    outputId := fetched_output_id
                    chain := some [HD_WALLET_TYPE, coin_type, account_index, 0, 0]
                    bech32Address := alias_output.stateController })) ∧
      (∀ k address_index internal,
        alias_output.stateController = .ed25519 k →
        search_result = some (address_index, internal) →
        resolve_alias_required_address utxo_chain_inputs required_inputs
            alias_id (.alias alias_output) fetched_output_id (some ())
            search_result coin_type account_index =
          .ok (some { output := .alias alias_output
                      outputId := fetched_output_id
                      chain := some [HD_WALLET_TYPE, coin_type, account_index,
                        (if internal then 1 else 0), address_index]
                      bech32Address := alias_output.stateController })) ∧
      (∀ k,
        alias_output.stateController = .ed25519 k →
        search_result = none →
        resolve_alias_required_address utxo_chain_inputs required_inputs
            alias_id (.alias alias_output) fetched_output_id (some ())
            search_result coin_type account_index =
          .error .missingInputWithEd25519Address) ∧
      ((∀ k, alias_output.stateController ≠ .ed25519 k) →
        resolve_alias_required_address utxo_chain_inputs required_inputs
            alias_id (.alias alias_output) fetched_output_id (some ())
            search_result coin_type account_index =
          .ok (some { output := .alias alias_output
                      outputId := fetched_output_id
                      chain := none
                      bech32Address := alias_output.stateController }))) := by
  constructor
  · intro hany secret_manager
    unfold resolve_alias_required_address
    simp [hany]
  · intro hany
    refine ⟨?_, ?_, ?_, ?_⟩
    · unfold resolve_alias_required_address
      simp [hany]
    · intro k address_index internal hsc hsr
      unfold resolve_alias_required_address
      rw [hsr]
      simp only [hany, Bool.false_eq_true, if_false]
      rw [hsc]
      rfl
    · intro k hsc hsr
      unfold resolve_alias_required_address
      rw [hsr]
      simp only [hany, Bool.false_eq_true, if_false]
      rw [hsc]
    · intro hne
      unfold resolve_alias_required_address
      simp only [hany, Bool.false_eq_true, if_false]
      cases hsc : alias_output.stateController
      next k => exact absurd hsc (hne k)
      next cid => rfl
      next cid => rfl

/-- Witness for C5 at concrete inputs: the skip case, the offline placeholder
case and the Ed25519 search case. -/
theorem C5_resolver_alias_branch_amended_witness :
    resolve_alias_required_address
        [⟨.alias ⟨5, .chain 9, 0, .ed25519 1, .ed25519 2, none, none⟩, 21,
          none, .ed25519 1⟩] [] (.chain 9)
        (.alias ⟨5, .chain 9, 0, .ed25519 1, .ed25519 2, none, none⟩) 11
        (some ()) none 4218 0 = .ok none ∧
    resolve_alias_required_address [] [] (.chain 9)
        (.alias ⟨5, .chain 9, 0, .ed25519 1, .ed25519 2, none, none⟩) 11
        none none 4218 0 =
      .ok (some { output := .alias ⟨5, .chain 9, 0, .ed25519 1, .ed25519 2,
                    none, none⟩
                  outputId := 11
                  chain := some [HD_WALLET_TYPE, 4218, 0, 0, 0]
                  bech32Address := .ed25519 1 }) ∧
    resolve_alias_required_address [] [] (.chain 9)
        (.alias ⟨5, .chain 9, 0, .ed25519 1, .ed25519 2, none, none⟩) 11
        (some ()) (some (6, true)) 4218 0 =
      .ok (some { output := .alias ⟨5, .chain 9, 0, .ed25519 1, .ed25519 2,
                    none, none⟩
                  outputId := 11
                  chain := some [HD_WALLET_TYPE, 4218, 0, 1, 6]
                  bech32Address := .ed25519 1 }) :=
  ⟨(C5_resolver_alias_branch_amended
      [⟨.alias ⟨5, .chain 9, 0, .ed25519 1, .ed25519 2, none, none⟩, 21, none,
        .ed25519 1⟩] [] (.chain 9)
      ⟨5, .chain 9, 0, .ed25519 1, .ed25519 2, none, none⟩ 11 none 4218 0).1
      rfl (some ()),
   ((C5_resolver_alias_branch_amended [] [] (.chain 9)
      ⟨5, .chain 9, 0, .ed25519 1, .ed25519 2, none, none⟩ 11 none 4218
      0).2 rfl).1,
   (((C5_resolver_alias_branch_amended [] [] (.chain 9)
      ⟨5, .chain 9, 0, .ed25519 1, .ed25519 2, none, none⟩ 11 (some (6, true))
      4218 0).2 rfl).2.1 1 6 true rfl rfl)⟩

end SenderIssuer
